import Mathlib

/-!
Verification of the Alpaca broker resilience layer
(`broker_alpaca.py`, `broker_errors.py`).

The Python code is shallowly embedded: the mutable client object becomes an
explicit `BrokerState` record; methods become pure functions that return the
new state together with an `Except`-typed outcome; HTTP transport outcomes
are supplied as explicit sequences; wall-clock time is an explicit `now`
parameter (Python `time.time()` truncated to `int` where the source does so).
Python string operations (`in`, `.lower()`) are modelled structurally over
`List Char`, and Python truthiness of optional fields is modelled explicitly.
-/

/-- Python truthiness of an optional string field: `None` and `""` are falsy. -/
def pyTruthyStr : Option String → Bool
  | none => false
  | some s => s != ""

/-- Python truthiness of an optional numeric field: `None` and `0` are falsy. -/
def pyTruthyInt : Option Int → Bool
  | none => false
  | some v => v != 0

/-- `isPrefixChars needle hay`: `needle` is a prefix of `hay` (structural,
so that the kernel can evaluate it on literals). -/
def isPrefixChars : List Char → List Char → Bool
  | [], _ => true
  | _ :: _, [] => false
  | c :: cs, d :: ds => c == d && isPrefixChars cs ds

/-- `containsSubChars needle hay`: `needle` occurs contiguously in `hay`. -/
def containsSubChars : List Char → List Char → Bool
  | needle, [] => isPrefixChars needle []
  | needle, c :: rest => isPrefixChars needle (c :: rest) || containsSubChars needle rest

/-- Python's `needle in hay` on strings. -/
def strContains (hay needle : String) : Bool :=
  containsSubChars needle.data hay.data

/-- Python's `str.lower()` (ASCII case folding, which covers every message
the source inspects). -/
def strLower (s : String) : String :=
  ⟨s.data.map Char.toLower⟩

/-- The error taxonomy of `broker_errors.py`.  Each constructor carries the
fields the corresponding class stores (`message`, `status_code`, and
`retry_after` for the rate-limit error; the raw `response` object is not
modelled beyond `status_code`/message/headers, which are passed separately). -/
inductive BrokerErr where
  | authentication (message : String) (statusCode : Option Int)
  | rateLimit (message : String) (statusCode : Option Int) (retryAfter : Int)
  | api (message : String) (statusCode : Option Int)
  | network (message : String)
  | orderValidation (message : String) (statusCode : Option Int)
deriving DecidableEq, Repr

/-- `except BrokerRateLimitError` catches exactly the rate-limit variant. -/
def isRateLimitErr : BrokerErr → Bool
  | BrokerErr.rateLimit _ _ _ => true
  | _ => false

/-- `except BrokerAuthenticationError` catches exactly the authentication
variant. -/
def isAuthErr : BrokerErr → Bool
  | BrokerErr.authentication _ _ => true
  | _ => false

/-- The classes declared in `broker_errors.py`, for the inheritance claims. -/
inductive ErrClass where
  | brokerError
  | authenticationError
  | rateLimitError
  | apiError
  | networkError
  | orderValidationError
deriving DecidableEq, Repr

/-- The direct base class of each class, exactly as declared in
`broker_errors.py` (`BrokerError(Exception)` has no base inside the module). -/
def superclass : ErrClass → Option ErrClass
  | ErrClass.brokerError => none
  | ErrClass.authenticationError => some ErrClass.brokerError
  | ErrClass.rateLimitError => some ErrClass.brokerError
  | ErrClass.apiError => some ErrClass.brokerError
  | ErrClass.networkError => some ErrClass.brokerError
  | ErrClass.orderValidationError => some ErrClass.apiError

/-- Reflexive-transitive closure of `superclass`, with fuel larger than any
chain in the module. -/
def isSubclassOfAux : Nat → ErrClass → ErrClass → Bool
  | 0, _, _ => false
  | fuel + 1, c, d =>
    c == d ||
      (match superclass c with
       | some p => isSubclassOfAux fuel p d
       | none => false)

/-- `issubclass` over the module's class hierarchy. -/
def isSubclassOf (c d : ErrClass) : Bool := isSubclassOfAux 6 c d

/-- The mutable credential fields of the `AlpacaBroker` instance
(`__init__` in `broker_alpaca.py`). -/
structure BrokerState where
  apiKey : Option String
  secretKey : Option String
  accessToken : Option String
  refreshToken : Option String
  tokenExpiresAt : Option Int
deriving DecidableEq, Repr

/-- `AlpacaBroker.refresh_access_token`: raises an authentication error when
`self.refresh_token` is falsy, otherwise overwrites `access_token` and
`token_expires_at = now + 3600` and returns `True`.  The (possibly mutated)
state is returned alongside the outcome. -/
def refreshAccessToken (now : Int) (st : BrokerState) :
    Except BrokerErr Bool × BrokerState :=
  if pyTruthyStr st.refreshToken then
    (Except.ok true,
      { st with
          accessToken := some ("refreshed_token_" ++ st.refreshToken.getD ""),
          tokenExpiresAt := some (now + 3600) })
  else
    (Except.error (BrokerErr.authentication "No refresh token available" none), st)

/-- `AlpacaBroker._refresh_if_needed` (and its public wrapper
`refresh_if_needed`): refreshes exactly when `token_expires_at` is truthy and
`now >= token_expires_at`.  The second component counts the calls made to
`refresh_access_token`. -/
def refreshIfNeeded (now : Int) (st : BrokerState) :
    (Except BrokerErr Bool × BrokerState) × Nat :=
  if pyTruthyInt st.tokenExpiresAt && decide (st.tokenExpiresAt.getD 0 ≤ now) then
    (refreshAccessToken now st, 1)
  else
    ((Except.ok true, st), 0)

/-- `AlpacaBroker._handle_http_error`, as the pure classifier
`(status code, body message, x-ratelimit-reset header, now) → error`.
The header value is pre-parsed to `Option Int` (`response.headers.get` plus
`int(...)`; a missing or empty header is `none`). -/
def handleHttpError (statusCode : Int) (message : String)
    (rateLimitReset : Option Int) (now : Int) : BrokerErr :=
  if statusCode = 401 then
    BrokerErr.authentication message (some statusCode)
  else if statusCode = 429 then
    let retryAfter : Int :=
      match rateLimitReset with
      | some reset => reset - now
      | none => 60
    BrokerErr.rateLimit message (some statusCode) retryAfter
  else if statusCode = 403 then
    if strContains (strLower message) "insufficient" then
      BrokerErr.orderValidation message (some statusCode)
    else if strContains (strLower message) "trading halted" then
      BrokerErr.orderValidation message (some statusCode)
    else
      BrokerErr.api message (some statusCode)
  else if statusCode = 404 then
    if strContains message "asset not found" then
      BrokerErr.orderValidation message (some statusCode)
    else
      BrokerErr.api message (some statusCode)
  else if statusCode = 400 then
    BrokerErr.api message (some statusCode)
  else if statusCode ≥ 500 then
    BrokerErr.api message (some statusCode)
  else
    BrokerErr.api message (some statusCode)

/-- One `(limit, offset)` request per iteration of the `while remaining > 0`
loop in `AlpacaBroker.get_transactions`.  The loop is driven by structural
fuel; `fuel ≥ remaining` reproduces the source loop exactly, since each
iteration decreases `remaining` by `min(remaining, 100) ≥ 1`. -/
def txLoop : Nat → Int → Int → List (Int × Int)
  | 0, _, _ => []
  | fuel + 1, remaining, offset =>
    if remaining > 0 then
      let batch := min remaining 100
      (batch, offset) :: txLoop fuel (remaining - batch) (offset + batch)
    else []

/-- The sequence of `(limit, offset)` pairs that
`AlpacaBroker.get_transactions(limit)` sends to `GET /activities`. -/
def getTransactionsRequests (limit : Int) : List (Int × Int) :=
  txLoop limit.toNat limit 0

/-- HTTP methods used by the facade. -/
inductive HttpMethod where
  | get
  | post
  | delete
deriving DecidableEq, Repr

/-- Observable events of one public operation: a call to
`refresh_access_token`, or an outbound HTTP request. -/
inductive Ev where
  | refreshCall
  | http (method : HttpMethod) (path : String)
deriving DecidableEq, Repr

/-- The public request operations of the facade. -/
inductive OpName where
  | getAccount
  | getPositions
  | getTransactions (limit : Int)
  | getAsset (symbol : String)
  | placeOrder
  | getOrderStatus (orderId : String)
  | cancelOrder (orderId : String)
deriving DecidableEq, Repr

/-- The event trace each public operation performs before/while issuing its
request, read off the bodies in `broker_alpaca.py`: every operation goes
straight to `requests.<method>(...)`; none of them consults
`token_expires_at` or calls `_refresh_if_needed`, so the trace depends
neither on the stored credential nor on the clock. -/
def operationEvents (op : OpName) (_st : BrokerState) (_now : Int) : List Ev :=
  match op with
  | OpName.getAccount => [Ev.http HttpMethod.get "/account"]
  | OpName.getPositions => [Ev.http HttpMethod.get "/positions"]
  | OpName.getTransactions limit =>
      (getTransactionsRequests limit).map (fun _ => Ev.http HttpMethod.get "/activities")
  | OpName.getAsset symbol => [Ev.http HttpMethod.get ("/assets/" ++ symbol)]
  | OpName.placeOrder => [Ev.http HttpMethod.post "/orders"]
  | OpName.getOrderStatus orderId => [Ev.http HttpMethod.get ("/orders/" ++ orderId)]
  | OpName.cancelOrder orderId => [Ev.http HttpMethod.delete ("/orders/" ++ orderId)]

/-- Keys of the outbound order payload built by `AlpacaBroker.place_order`
(a fixed set of dict-literal keys in the source). -/
inductive OrderKey where
  | symbol
  | qty
  | side
  | orderType
  | timeInForce
  | limitPrice
  | notional
deriving DecidableEq, Repr

/-- Payload values (strings and Python floats; the floats are only carried,
never computed with, so they are modelled as rationals). -/
inductive OrderVal where
  | str (s : String)
  | num (q : Rat)
deriving DecidableEq, Repr

/-- The `order_data` dict built by `AlpacaBroker.place_order`: the base dict,
then `limit_price` if provided, then — if `notional` is provided — `notional`
is added and `qty` is deleted. -/
def buildOrderPayload (symbol : String) (qty : Rat)
    (side orderType timeInForce : String)
    (limitPrice notional : Option Rat) : List (OrderKey × OrderVal) :=
  let base : List (OrderKey × OrderVal) :=
    [(OrderKey.symbol, OrderVal.str symbol),
     (OrderKey.qty, OrderVal.num qty),
     (OrderKey.side, OrderVal.str side),
     (OrderKey.orderType, OrderVal.str orderType),
     (OrderKey.timeInForce, OrderVal.str timeInForce)]
  let withLimit :=
    match limitPrice with
    | some lp => base ++ [(OrderKey.limitPrice, OrderVal.num lp)]
    | none => base
  match notional with
  | some n =>
      (withLimit ++ [(OrderKey.notional, OrderVal.num n)]).filter
        (fun kv => kv.1 != OrderKey.qty)
  | none => withLimit

/-- Dict key membership. -/
def hasKey (payload : List (OrderKey × OrderVal)) (k : OrderKey) : Bool :=
  payload.any (fun kv => kv.1 == k)

/-- Result of `AlpacaBroker.get_account_with_retry`: the outcome (`none` is
Python's implicit `None` when the `for` loop completes without returning),
the number of `get_account` attempts made, and the list of back-off sleep
durations in order. -/
structure RetryTrace where
  result : Option (Except BrokerErr String)
  attempts : Nat
  sleeps : List Nat
deriving Repr

/-- The `for attempt in range(max_retries)` loop of
`AlpacaBroker.get_account_with_retry`.  `outcomes n` is what the n-th
`get_account()` call does; `fuel` counts the remaining loop iterations
(`fuel + attempt = maxRetries` at every call). -/
def retryLoop (outcomes : Nat → Except BrokerErr String) (maxRetries : Nat) :
    Nat → Nat → RetryTrace
  | 0, _ => { result := none, attempts := 0, sleeps := [] }
  | fuel + 1, attempt =>
    match outcomes attempt with
    | Except.ok v => { result := some (Except.ok v), attempts := 1, sleeps := [] }
    | Except.error e =>
      if isRateLimitErr e then
        if attempt < maxRetries - 1 then
          let t := retryLoop outcomes maxRetries fuel (attempt + 1)
          { result := t.result, attempts := t.attempts + 1,
            sleeps := min (2 ^ attempt) 60 :: t.sleeps }
        else
          { result := some (Except.error e), attempts := 1, sleeps := [] }
      else
        { result := some (Except.error e), attempts := 1, sleeps := [] }

/-- `AlpacaBroker.get_account_with_retry(max_retries)`; `range(max_retries)`
is empty for non-positive arguments, hence the `Int.toNat`. -/
def getAccountWithRetry (outcomes : Nat → Except BrokerErr String)
    (maxRetries : Int) : RetryTrace :=
  retryLoop outcomes maxRetries.toNat maxRetries.toNat 0

/-- Result of `AlpacaBroker.place_order_with_auto_refresh`: the outcome, the
final credential state, the number of `refresh_access_token` calls, and the
number of `place_order` attempts. -/
structure AutoRefreshTrace where
  result : Except BrokerErr String
  finalState : BrokerState
  refreshCalls : Nat
  placeAttempts : Nat
deriving Repr

/-- `AlpacaBroker.place_order_with_auto_refresh`: try `place_order`; on an
authentication error, call `refresh_access_token` (whose own failure
propagates, since it is raised inside the `except` block) and retry once.
`outcomes n` is what the n-th `place_order` invocation does. -/
def placeOrderWithAutoRefresh (now : Int) (st : BrokerState)
    (outcomes : Nat → Except BrokerErr String) : AutoRefreshTrace :=
  match outcomes 0 with
  | Except.ok v =>
    { result := Except.ok v, finalState := st, refreshCalls := 0, placeAttempts := 1 }
  | Except.error e =>
    if isAuthErr e then
      match refreshAccessToken now st with
      | (Except.ok _, st') =>
        { result := outcomes 1, finalState := st', refreshCalls := 1, placeAttempts := 2 }
      | (Except.error re, st') =>
        { result := Except.error re, finalState := st', refreshCalls := 1, placeAttempts := 1 }
    else
      { result := Except.error e, finalState := st, refreshCalls := 0, placeAttempts := 1 }

/-- Program counter of one thread executing `_refresh_if_needed`.  The expiry
check (line 29) and the call to `refresh_access_token` (line 30) are distinct
steps with no lock around them; modelling the whole refresh as one atomic
step is even generous to the source. -/
inductive ThreadPc where
  | checkExpiry
  | doRefresh
  | finished (result : Bool)
deriving DecidableEq, Repr

/-- Shared state plus per-thread program counters for concurrent callers of
`refresh_if_needed`. -/
structure ConcSys where
  st : BrokerState
  refreshCalls : Nat
  pcs : List ThreadPc
deriving DecidableEq, Repr

/-- One interleaving step: thread `t` executes its next statement. -/
def stepThread (now : Int) (sys : ConcSys) (t : Nat) : ConcSys :=
  match sys.pcs[t]? with
  | none => sys
  | some ThreadPc.checkExpiry =>
    if pyTruthyInt sys.st.tokenExpiresAt && decide (sys.st.tokenExpiresAt.getD 0 ≤ now) then
      { sys with pcs := sys.pcs.set t ThreadPc.doRefresh }
    else
      { sys with pcs := sys.pcs.set t (ThreadPc.finished true) }
  | some ThreadPc.doRefresh =>
    match refreshAccessToken now sys.st with
    | (Except.ok b, st') =>
      { st := st', refreshCalls := sys.refreshCalls + 1,
        pcs := sys.pcs.set t (ThreadPc.finished b) }
    | (Except.error _, st') =>
      { st := st', refreshCalls := sys.refreshCalls + 1,
        pcs := sys.pcs.set t (ThreadPc.finished false) }
  | some (ThreadPc.finished _) => sys

/-- Run a schedule (a list of thread ids) from a configuration. -/
def runSched (now : Int) : ConcSys → List Nat → ConcSys
  | sys, [] => sys
  | sys, t :: rest => runSched now (stepThread now sys t) rest

/-- A broker whose stored credential is expired (`token_expires_at = 10`,
clock at `100`) and that holds a valid refresh token — the setup of
`test_concurrent_token_refresh` and `test_token_refresh_success`. -/
def expiredBroker : BrokerState :=
  { apiKey := none, secretKey := none,
    accessToken := some "expired_token",
    refreshToken := some "valid_refresh_token",
    tokenExpiresAt := some 10 }

/-- A broker with no stored refresh token. -/
def noRefreshTokenBroker : BrokerState :=
  { apiKey := none, secretKey := none,
    accessToken := some "expired_token",
    refreshToken := none,
    tokenExpiresAt := some 10 }

/-- Two concurrent callers of `refresh_if_needed` on the expired broker. -/
def twoCallerInit : ConcSys :=
  { st := expiredBroker, refreshCalls := 0,
    pcs := [ThreadPc.checkExpiry, ThreadPc.checkExpiry] }

/-- A rate-limit error where the `x-ratelimit-reset` header (100) is already
in the past (now = 200): the classifier produces `retry_after = -100`,
refuting the claim that `retry_after` is never negative (no floor at 0
exists in `_handle_http_error`). -/
theorem c1_negative_retry_after :
    handleHttpError 429 "rate limit exceeded" (some 100) 200 =
      BrokerErr.rateLimit "rate limit exceeded" (some 429) (-100) ∧
    (-100 : Int) < 0 := by
  exact ⟨rfl, by decide⟩

/-- C1 (amended): every 429 failure raises a rate-limit error whose
`retry_after` is exactly `x-ratelimit-reset - now` when the header is
present — with no floor, so it is negative whenever the reset time has
passed — and exactly 60 when the header is absent. -/
theorem c1_retry_after_formula (message : String) (reset now : Int) :
    handleHttpError 429 message (some reset) now =
      BrokerErr.rateLimit message (some 429) (reset - now) ∧
    handleHttpError 429 message none now =
      BrokerErr.rateLimit message (some 429) 60 := by
  constructor <;> rfl

/-- C2: two concurrent callers of `refresh_if_needed` on an expired
credential, interleaved as check-check-refresh-refresh, each trigger a
refresh: `refresh_access_token` runs twice, not once — the refresh path has
no mutual exclusion, contradicting the spec and the repository's own test
`test_concurrent_token_refresh` (which asserts one refresh "due to
locking").  Both callers do return successfully. -/
theorem c2_unsynchronized_double_refresh :
    (runSched 100 twoCallerInit [0, 1, 0, 1]).refreshCalls = 2 ∧
    (runSched 100 twoCallerInit [0, 1, 0, 1]).refreshCalls ≠ 1 ∧
    (runSched 100 twoCallerInit [0, 1, 0, 1]).pcs =
      [ThreadPc.finished true, ThreadPc.finished true] := by
  refine ⟨rfl, by decide, rfl⟩

/-- C3 is false: with the stored credential expired (`token_expires_at = 10`,
set and in the past at `now = 100`), `get_account` issues its HTTP request
with no preceding refresh — no public request operation ever consults
`token_expires_at`. -/
theorem c3_stale_credential_used :
    pyTruthyInt expiredBroker.tokenExpiresAt = true ∧
    expiredBroker.tokenExpiresAt.getD 0 ≤ 100 ∧
    operationEvents OpName.getAccount expiredBroker 100 =
      [Ev.http HttpMethod.get "/account"] ∧
    Ev.refreshCall ∉ operationEvents OpName.getAccount expiredBroker 100 := by
  refine ⟨rfl, by decide, rfl, by decide⟩

/-- C3 (amended): no public request operation triggers a credential refresh —
each issues its HTTP request directly, and its event trace is independent of
the stored credential and of the clock; a refresh happens only when the
caller explicitly invokes `refresh_if_needed`, which calls
`refresh_access_token` exactly when `token_expires_at` is truthy (set and
non-zero) and `now ≥ token_expires_at`. -/
theorem c3_operations_never_refresh (op : OpName) (st st' : BrokerState)
    (now now' : Int) :
    Ev.refreshCall ∉ operationEvents op st now ∧
    operationEvents op st now = operationEvents op st' now' ∧
    ((refreshIfNeeded now st).2 = 1 ↔
      pyTruthyInt st.tokenExpiresAt = true ∧ st.tokenExpiresAt.getD 0 ≤ now) := by
  refine ⟨?_, ?_, ?_⟩
  · cases op <;> simp [operationEvents]
  · cases op <;> rfl
  · unfold refreshIfNeeded
    by_cases h1 : pyTruthyInt st.tokenExpiresAt = true
    · by_cases h2 : st.tokenExpiresAt.getD 0 ≤ now <;> simp [h1, h2]
    · simp [h1]

/-- C9: whenever `refresh_access_token` fails (it raises before any field is
assigned), the stored credential is unchanged: the state, and in particular
`access_token`, `refresh_token` and `token_expires_at`, are exactly as
before the call. -/
theorem c9_failed_refresh_preserves_state (now : Int) (st : BrokerState)
    (e : BrokerErr) (h : (refreshAccessToken now st).1 = Except.error e) :
    (refreshAccessToken now st).2 = st ∧
    (refreshAccessToken now st).2.accessToken = st.accessToken ∧
    (refreshAccessToken now st).2.refreshToken = st.refreshToken ∧
    (refreshAccessToken now st).2.tokenExpiresAt = st.tokenExpiresAt := by
  by_cases ht : pyTruthyStr st.refreshToken <;>
    simp [refreshAccessToken, ht] at h ⊢

/-- C9 witness: on a broker with no stored refresh token, the refresh fails
and the state is returned untouched. -/
theorem c9_failed_refresh_preserves_state_witness :
    (refreshAccessToken 100 noRefreshTokenBroker).2 = noRefreshTokenBroker :=
  (c9_failed_refresh_preserves_state 100 noRefreshTokenBroker
    (BrokerErr.authentication "No refresh token available" none) rfl).1

/-- C10: for `max_retries ≤ 0` the `range(max_retries)` loop body never runs:
`get_account_with_retry` makes no attempt, sleeps never, and falls through
to Python's implicit `None`. -/
theorem c10_no_attempts_when_nonpositive (outcomes : Nat → Except BrokerErr String)
    (maxRetries : Int) (h : maxRetries ≤ 0) :
    getAccountWithRetry outcomes maxRetries =
      { result := none, attempts := 0, sleeps := [] } := by
  have h0 : maxRetries.toNat = 0 := by omega
  simp [getAccountWithRetry, h0, retryLoop]

/-- C10 witness: `max_retries = 0` with an always-succeeding transport still
returns `None` without any attempt. -/
theorem c10_no_attempts_when_nonpositive_witness :
    getAccountWithRetry (fun _ => Except.ok "account") 0 =
      { result := none, attempts := 0, sleeps := [] } :=
  c10_no_attempts_when_nonpositive (fun _ => Except.ok "account") 0 (by decide)

/-- Outcome sequence for the C4 instances: every `place_order` attempt hits a
401 authentication failure. -/
def c4Outcomes : Nat → Except BrokerErr String :=
  fun _ => Except.error (BrokerErr.authentication "Invalid or expired token" (some 401))

/-- C4 is false as stated: on a broker with no stored refresh token, the
wrapped `place_order` raises an authentication error, the forced
`refresh_access_token` call itself raises inside the `except` block, and the
operation is never retried — `place_order` runs once, not twice, refuting
"the operation is retried exactly once". -/
theorem c4_refresh_failure_skips_retry :
    (placeOrderWithAutoRefresh 0 noRefreshTokenBroker c4Outcomes).refreshCalls = 1 ∧
    (placeOrderWithAutoRefresh 0 noRefreshTokenBroker c4Outcomes).placeAttempts = 1 ∧
    (placeOrderWithAutoRefresh 0 noRefreshTokenBroker c4Outcomes).placeAttempts ≠ 2 ∧
    (placeOrderWithAutoRefresh 0 noRefreshTokenBroker c4Outcomes).result =
      Except.error (BrokerErr.authentication "No refresh token available" none) := by
  refine ⟨rfl, rfl, by decide, rfl⟩

/-- C4 (amended): when the wrapped `place_order` raises an authentication
error, exactly one `refresh_access_token` call is forced; if the refresh
succeeds (a refresh token is stored), the operation is retried exactly once
and the retry's outcome — in particular a second authentication error —
propagates unmodified with no further refresh or retry; if the forced
refresh itself fails (no refresh token stored), its authentication error
propagates and the operation is not retried. -/
theorem c4_auto_refresh_once (now : Int) (st : BrokerState)
    (outcomes : Nat → Except BrokerErr String) (e : BrokerErr)
    (h0 : outcomes 0 = Except.error e) (hauth : isAuthErr e = true) :
    (placeOrderWithAutoRefresh now st outcomes).refreshCalls = 1 ∧
    (pyTruthyStr st.refreshToken = true →
      (placeOrderWithAutoRefresh now st outcomes).placeAttempts = 2 ∧
      (placeOrderWithAutoRefresh now st outcomes).result = outcomes 1 ∧
      ∀ e2, outcomes 1 = Except.error e2 →
        (placeOrderWithAutoRefresh now st outcomes).result = Except.error e2) ∧
    (pyTruthyStr st.refreshToken = false →
      (placeOrderWithAutoRefresh now st outcomes).placeAttempts = 1 ∧
      (placeOrderWithAutoRefresh now st outcomes).result =
        Except.error (BrokerErr.authentication "No refresh token available" none)) := by
  unfold placeOrderWithAutoRefresh refreshAccessToken
  rw [h0]
  cases hrt : pyTruthyStr st.refreshToken <;> simp [hauth, hrt]

/-- C4 witness: on consecutive 401s with a stored refresh token, the wrapper
refreshes once, retries once, and the second authentication error propagates
unmodified. -/
theorem c4_auto_refresh_once_witness :
    (placeOrderWithAutoRefresh 0 expiredBroker c4Outcomes).refreshCalls = 1 ∧
    (placeOrderWithAutoRefresh 0 expiredBroker c4Outcomes).placeAttempts = 2 ∧
    (placeOrderWithAutoRefresh 0 expiredBroker c4Outcomes).result =
      Except.error (BrokerErr.authentication "Invalid or expired token" (some 401)) :=
  ⟨(c4_auto_refresh_once 0 expiredBroker c4Outcomes _ rfl rfl).1,
   ((c4_auto_refresh_once 0 expiredBroker c4Outcomes _ rfl rfl).2.1 (by decide)).1,
   ((c4_auto_refresh_once 0 expiredBroker c4Outcomes _ rfl rfl).2.1 (by decide)).2.2 _ rfl⟩

/-- C6: a 403 whose body message contains, case-insensitively, "insufficient"
or "trading halted" is classified as an order-validation error, any other
403 as a generic API error; a 404 whose message contains "asset not found"
is an order-validation error, any other 404 a generic API error; and
`OrderValidationError` is declared a subclass of the generic API error. -/
theorem c6_order_validation_classification :
    (∀ (message : String) (reset : Option Int) (now : Int),
      strContains (strLower message) "insufficient" = true →
      handleHttpError 403 message reset now =
        BrokerErr.orderValidation message (some 403)) ∧
    (∀ (message : String) (reset : Option Int) (now : Int),
      strContains (strLower message) "trading halted" = true →
      handleHttpError 403 message reset now =
        BrokerErr.orderValidation message (some 403)) ∧
    (∀ (message : String) (reset : Option Int) (now : Int),
      strContains (strLower message) "insufficient" = false →
      strContains (strLower message) "trading halted" = false →
      handleHttpError 403 message reset now = BrokerErr.api message (some 403)) ∧
    (∀ (message : String) (reset : Option Int) (now : Int),
      strContains message "asset not found" = true →
      handleHttpError 404 message reset now =
        BrokerErr.orderValidation message (some 404)) ∧
    (∀ (message : String) (reset : Option Int) (now : Int),
      strContains message "asset not found" = false →
      handleHttpError 404 message reset now = BrokerErr.api message (some 404)) ∧
    isSubclassOf ErrClass.orderValidationError ErrClass.apiError = true := by
  refine ⟨?_, ?_, ?_, ?_, ?_, rfl⟩ <;> intro message reset now h
  · simp [handleHttpError, h]
  · by_cases hins : strContains (strLower message) "insufficient" = true <;>
      simp [handleHttpError, hins, h]
  · intro h2
    simp [handleHttpError, h, h2]
  · simp [handleHttpError, h]
  · simp [handleHttpError, h]

/-- C6 witness: concrete 403/404 bodies from the repository's tests. -/
theorem c6_order_validation_classification_witness :
    handleHttpError 403 "Insufficient buying power" none 0 =
      BrokerErr.orderValidation "Insufficient buying power" (some 403) ∧
    handleHttpError 403 "some other reason" none 0 =
      BrokerErr.api "some other reason" (some 403) ∧
    handleHttpError 404 "asset not found" none 0 =
      BrokerErr.orderValidation "asset not found" (some 404) ∧
    handleHttpError 404 "order not found" none 0 =
      BrokerErr.api "order not found" (some 404) :=
  ⟨c6_order_validation_classification.1 _ none 0 (by decide),
   c6_order_validation_classification.2.2.1 _ none 0 (by decide) (by decide),
   c6_order_validation_classification.2.2.2.1 _ none 0 (by decide),
   c6_order_validation_classification.2.2.2.2.1 _ none 0 (by decide)⟩

/-- C7: when both `qty` and `notional` are supplied, the outbound payload
contains `notional` and omits `qty` (notional wins and `qty` is deleted);
and `limit_price` is a key of the payload exactly when the caller provided
it, whatever `notional` is. -/
theorem c7_notional_precedence (symbol side orderType timeInForce : String)
    (qty : Rat) (limitPrice : Option Rat) (notionalVal : Rat) :
    hasKey (buildOrderPayload symbol qty side orderType timeInForce limitPrice
      (some notionalVal)) OrderKey.notional = true ∧
    hasKey (buildOrderPayload symbol qty side orderType timeInForce limitPrice
      (some notionalVal)) OrderKey.qty = false ∧
    ∀ anyNotional : Option Rat,
      hasKey (buildOrderPayload symbol qty side orderType timeInForce limitPrice
        anyNotional) OrderKey.limitPrice = limitPrice.isSome := by
  refine ⟨?_, ?_, ?_⟩
  · cases limitPrice <;> simp [buildOrderPayload, hasKey]
  · cases limitPrice <;> simp [buildOrderPayload, hasKey]
  · intro anyNotional
    cases limitPrice <;> cases anyNotional <;> simp [buildOrderPayload, hasKey]

/-- Loop invariant of `get_transactions`: with enough fuel, the emitted
`(limit, offset)` pairs sum to the requested total, each batch is
`min(remaining, 100)` at its offset (where `remaining = total − progress`),
the first request starts at the initial offset, and each offset advances by
the previous batch. -/
theorem txLoop_spec : ∀ (fuel : Nat) (remaining offset : Int),
    0 ≤ remaining → remaining ≤ (fuel : Int) →
    ((txLoop fuel remaining offset).map Prod.fst).sum = remaining ∧
    (∀ p ∈ txLoop fuel remaining offset,
      p.1 = min (remaining + offset - p.2) 100 ∧ 1 ≤ p.1 ∧ offset ≤ p.2) ∧
    (∀ q ∈ (txLoop fuel remaining offset).head?, q.2 = offset) ∧
    List.Chain' (fun p q => q.2 = p.2 + p.1) (txLoop fuel remaining offset) := by
  intro fuel
  induction fuel with
  | zero =>
    intro remaining offset h0 hf
    have hr0 : remaining = 0 := by omega
    subst hr0
    simp [txLoop]
  | succ fuel ih =>
    intro remaining offset h0 hf
    by_cases hpos : remaining > 0
    · have hb1 : (1 : Int) ≤ min remaining 100 := le_min (by omega) (by omega)
      have hble : min remaining 100 ≤ remaining := min_le_left _ _
      have hstep : txLoop (fuel + 1) remaining offset =
          (min remaining 100, offset) ::
            txLoop fuel (remaining - min remaining 100) (offset + min remaining 100) := by
        simp [txLoop, hpos]
      obtain ⟨ihsum, ihmem, ihhead, ihchain⟩ :=
        ih (remaining - min remaining 100) (offset + min remaining 100)
          (by omega) (by push_cast at hf ⊢; omega)
      rw [hstep]
      refine ⟨?_, ?_, ?_, ?_⟩
      · simp only [List.map_cons, List.sum_cons, ihsum]
        ring
      · intro p hp
        rcases List.mem_cons.mp hp with hhd | htl
        · subst hhd
          refine ⟨?_, hb1, le_refl _⟩
          rw [show remaining + offset - offset = remaining from by ring]
        · obtain ⟨hb, h1p, hop⟩ := ihmem p htl
          refine ⟨?_, h1p, by omega⟩
          rw [show remaining + offset - p.2 =
            remaining - min remaining 100 + (offset + min remaining 100) - p.2 from by ring]
          exact hb
      · simp
      · rw [List.chain'_cons']
        refine ⟨?_, ihchain⟩
        intro b hb
        have := ihhead b hb
        omega
    · have hr0 : remaining = 0 := by omega
      subst hr0
      simp [txLoop]

/-- C8: for every `totalLimit ≥ 0` the paginator's request sequence is
finite, the requested batch sizes sum to `totalLimit`, each request asks for
`min(remaining, 100)` items (with `remaining = totalLimit − offset`, so every
batch is at least 1), the first request is at offset 0, and every subsequent
offset advances by the previous batch; in particular `totalLimit = 150`
issues exactly the two requests `(100, 0)` and `(50, 100)`. -/
theorem c8_pagination (totalLimit : Int) (h : 0 ≤ totalLimit) :
    ((getTransactionsRequests totalLimit).map Prod.fst).sum = totalLimit ∧
    (∀ p ∈ getTransactionsRequests totalLimit,
      p.1 = min (totalLimit - p.2) 100 ∧ 1 ≤ p.1 ∧ 0 ≤ p.2) ∧
    (∀ q ∈ (getTransactionsRequests totalLimit).head?, q.2 = 0) ∧
    List.Chain' (fun p q => q.2 = p.2 + p.1) (getTransactionsRequests totalLimit) ∧
    getTransactionsRequests 150 = [(100, 0), (50, 100)] := by
  obtain ⟨hsum, hmem, hhead, hchain⟩ :=
    txLoop_spec totalLimit.toNat totalLimit 0 h (by omega)
  unfold getTransactionsRequests
  refine ⟨hsum, ?_, hhead, hchain, by decide⟩
  intro p hp
  obtain ⟨hb, h1p, hop⟩ := hmem p hp
  refine ⟨?_, h1p, hop⟩
  rw [show totalLimit - p.2 = totalLimit + 0 - p.2 from by ring]
  exact hb

/-- C8 witness: `get_transactions(150)` issues exactly two requests,
`(limit=100, offset=0)` then `(limit=50, offset=100)`. -/
theorem c8_pagination_witness :
    getTransactionsRequests 150 = [(100, 0), (50, 100)] :=
  (c8_pagination 150 (by decide)).2.2.2.2

/-- Loop invariant of `get_account_with_retry` (with `fuel` the remaining
iterations, so `attempt + fuel = maxRetries`): at most `fuel` further
attempts are made (and at least one when fuel remains); the back-off sleeps
are exactly `min(2^a, 60)` for the attempts `a` that were retried, in order;
every non-final attempt failed with a rate-limit error (so the loop retries
only on rate-limit errors); and if every remaining attempt is rate-limited,
the loop uses all its attempts and propagates the final rate-limit error. -/
theorem retryLoop_spec (outcomes : Nat → Except BrokerErr String)
    (maxRetries : Nat) :
    ∀ (fuel attempt : Nat), attempt + fuel = maxRetries →
    (retryLoop outcomes maxRetries fuel attempt).attempts ≤ fuel ∧
    (1 ≤ fuel → 1 ≤ (retryLoop outcomes maxRetries fuel attempt).attempts) ∧
    (retryLoop outcomes maxRetries fuel attempt).sleeps =
      (List.range ((retryLoop outcomes maxRetries fuel attempt).attempts - 1)).map
        (fun k => min (2 ^ (attempt + k)) 60) ∧
    (∀ k, k + 1 < (retryLoop outcomes maxRetries fuel attempt).attempts →
      ∃ e, outcomes (attempt + k) = Except.error e ∧ isRateLimitErr e = true) ∧
    ((∀ k, k < fuel →
        ∃ e, outcomes (attempt + k) = Except.error e ∧ isRateLimitErr e = true) →
      1 ≤ fuel →
      (retryLoop outcomes maxRetries fuel attempt).attempts = fuel ∧
      ∃ e, outcomes (attempt + (fuel - 1)) = Except.error e ∧
        (retryLoop outcomes maxRetries fuel attempt).result =
          some (Except.error e)) := by
  intro fuel
  induction fuel with
  | zero =>
    intro attempt hinv
    simp [retryLoop]
  | succ fuel ih =>
    intro attempt hinv
    cases houtcome : outcomes attempt with
    | ok v =>
      simp only [retryLoop, houtcome]
      refine ⟨by omega, fun _ => le_refl _, by simp, ?_, ?_⟩
      · intro k hk
        omega
      · intro H _
        obtain ⟨e, he, _⟩ := H 0 (by omega)
        rw [Nat.add_zero, houtcome] at he
        exact absurd he (by simp)
    | error e =>
      cases hrl : isRateLimitErr e with
      | false =>
        simp only [retryLoop, houtcome, hrl, Bool.false_eq_true, if_false]
        refine ⟨by omega, fun _ => le_refl _, by simp, ?_, ?_⟩
        · intro k hk
          omega
        · intro H _
          obtain ⟨e2, he2, hrl2⟩ := H 0 (by omega)
          rw [Nat.add_zero, houtcome] at he2
          obtain rfl : e = e2 := by injection he2
          rw [hrl] at hrl2
          exact absurd hrl2 (by simp)
      | true =>
        by_cases hlt : attempt < maxRetries - 1
        · have hfuel : 1 ≤ fuel := by omega
          obtain ⟨ih1, ih1b, ih2, ih3, ih4⟩ := ih (attempt + 1) (by omega)
          have hta : 1 ≤ (retryLoop outcomes maxRetries fuel (attempt + 1)).attempts :=
            ih1b hfuel
          simp only [retryLoop, houtcome, hrl, if_true, if_pos hlt]
          refine ⟨by omega, fun _ => by omega, ?_, ?_, ?_⟩
          · obtain ⟨m, hm⟩ : ∃ m,
                (retryLoop outcomes maxRetries fuel (attempt + 1)).attempts = m + 1 :=
              ⟨(retryLoop outcomes maxRetries fuel (attempt + 1)).attempts - 1, by omega⟩
            rw [hm] at ih2
            simp only [Nat.add_sub_cancel, hm]
            rw [List.range_succ_eq_map, List.map_cons, List.map_map]
            refine congrArg₂ List.cons (by simp) ?_
            rw [ih2]
            simp only [Nat.add_sub_cancel]
            apply List.map_congr_left
            intro k _
            have harith : attempt + 1 + k = attempt + (k + 1) := by omega
            simp [Function.comp, harith]
          · intro k hk
            cases k with
            | zero => exact ⟨e, by simpa using houtcome, hrl⟩
            | succ j =>
              have := ih3 j (by omega)
              rwa [show attempt + 1 + j = attempt + (j + 1) from by omega] at this
          · intro H _
            have H2 : ∀ k, k < fuel →
                ∃ e2, outcomes (attempt + 1 + k) = Except.error e2 ∧
                  isRateLimitErr e2 = true := by
              intro k hk
              have := H (k + 1) (by omega)
              rwa [show attempt + (k + 1) = attempt + 1 + k from by omega] at this
            obtain ⟨hta2, e2, he2, hres2⟩ := ih4 H2 hfuel
            refine ⟨by omega, e2, ?_, hres2⟩
            rwa [show attempt + 1 + (fuel - 1) = attempt + (fuel + 1 - 1) from by omega]
              at he2
        · have hfuel0 : fuel = 0 := by omega
          subst hfuel0
          simp only [retryLoop, houtcome, hrl, if_true, if_neg hlt]
          refine ⟨by omega, fun _ => le_refl _, by simp, ?_, ?_⟩
          · intro k hk
            omega
          · intro _ _
            exact ⟨by simp, e, by simpa using houtcome, by simp⟩

/-- Transport outcome sequence [429, 429, success] for the C5 instance. -/
def c5Outcomes : Nat → Except BrokerErr String
  | 0 => Except.error (BrokerErr.rateLimit "rate limit exceeded" (some 429) 60)
  | 1 => Except.error (BrokerErr.rateLimit "rate limit exceeded" (some 429) 60)
  | _ + 2 => Except.ok "account"

/-- C5: for every `max_retries ≥ 1` and outcome sequence,
`get_account_with_retry` makes at most `max_retries` attempts; its sleeps
are exactly `min(2^attempt, 60)` for attempts `0, 1, …` that were retried,
in order; every non-final attempt failed with a rate-limit error (only
rate-limit errors are retried — any other outcome ends the loop); and when
every attempt is rate-limited, the final attempt's error propagates instead
of a further retry.  In particular, [429, 429, success] with
`max_retries = 3` succeeds after exactly 2 retries with sleeps [1, 2]. -/
theorem c5_rate_limit_retry (outcomes : Nat → Except BrokerErr String)
    (maxRetries : Int) (hpos : 1 ≤ maxRetries) :
    (getAccountWithRetry outcomes maxRetries).attempts ≤ maxRetries.toNat ∧
    (getAccountWithRetry outcomes maxRetries).sleeps =
      (List.range ((getAccountWithRetry outcomes maxRetries).attempts - 1)).map
        (fun k => min (2 ^ k) 60) ∧
    (∀ k, k + 1 < (getAccountWithRetry outcomes maxRetries).attempts →
      ∃ e, outcomes k = Except.error e ∧ isRateLimitErr e = true) ∧
    ((∀ k, k < maxRetries.toNat →
        ∃ e, outcomes k = Except.error e ∧ isRateLimitErr e = true) →
      (getAccountWithRetry outcomes maxRetries).attempts = maxRetries.toNat ∧
      ∃ e, outcomes (maxRetries.toNat - 1) = Except.error e ∧
        (getAccountWithRetry outcomes maxRetries).result =
          some (Except.error e)) ∧
    getAccountWithRetry c5Outcomes 3 =
      { result := some (Except.ok "account"), attempts := 3, sleeps := [1, 2] } := by
  obtain ⟨h1, h1b, h2, h3, h4⟩ :=
    retryLoop_spec outcomes maxRetries.toNat maxRetries.toNat 0 (by omega)
  unfold getAccountWithRetry
  refine ⟨h1, by simpa using h2, ?_, ?_, by rfl⟩
  · intro k hk
    simpa using h3 k hk
  · intro H
    obtain ⟨ha, e, he, hr⟩ :=
      h4 (fun k hk => by simpa using H k hk) (by omega)
    exact ⟨ha, e, by simpa using he, hr⟩

/-- C5 witness: the concrete [429, 429, success] run with `max_retries = 3`:
three attempts (two retries), sleeps `min(2^0,60) = 1` then
`min(2^1,60) = 2`, final result the successful account. -/
theorem c5_rate_limit_retry_witness :
    getAccountWithRetry c5Outcomes 3 =
      { result := some (Except.ok "account"), attempts := 3, sleeps := [1, 2] } :=
  (c5_rate_limit_retry c5Outcomes 3 (by decide)).2.2.2.2
